import Mathlib

/-!
# sensu-chef-deregistration-handler: embedding of `main.go`

The handler is a straight-line program around two remote APIs.  The embedding keeps
* the package-level variable `handlerConfig` and the event the callbacks receive in a `World`,
  together with the ordered list of calls made to code outside the package;
* the answers of that outside code (file system, go-chef, x509, the Sensu httpclient) in an
  `Env`, one function per library entry point the source calls.

Every function of the source becomes a function `World → result × World`.
-/

namespace ChefHandler

/-! ## Go values -/

/-- Go `error` values that are not nil.  `httpError` is the dynamic type
`httpclient.HTTPError` (the only one the source inspects, by type assertion); `plain` is
every other dynamic type, among them what `errors.New` and `fmt.Errorf` build.  `msg` is
the text `Error()` returns. -/
inductive GoError where
  | plain (msg : String)
  | httpError (StatusCode : Int) (msg : String)
deriving DecidableEq, Repr

/-- The method `Error()` of a Go error. -/
def GoError.Error : GoError → String
  | .plain msg => msg
  | .httpError _ msg => msg

/-- The type assertion `err.(httpclient.HTTPError)`: the status code when it succeeds. -/
def GoError.asHTTPError : GoError → Option Int
  | .plain _ => none
  | .httpError code _ => some code

/-- Go `len` of a string: its length in bytes. -/
def len (s : String) : Nat := s.utf8ByteSize

/-! ## Data model -/

/-- The fields of `sensu.PluginConfig` the source sets. -/
structure PluginConfig where
  Name : String
  Short : String
  Timeout : Nat
  Keyspace : String
deriving DecidableEq, Repr

/-- The struct `HandlerConfig` of the source. -/
structure HandlerConfig where
  PluginConfig : PluginConfig
  Endpoint : String
  ClientName : String
  ClientKeyPath : String
  SSLPemPath : String
  SSLVerify : Bool
  SensuAPIURL : String
  SensuAPIKey : String
  SensuCACert : String
deriving DecidableEq, Repr

/-- The `Default` field of an option (`interface{}` in Go): unset, a string or a bool. -/
inductive DefaultValue where
  | unset
  | str (s : String)
  | bool (b : Bool)
deriving DecidableEq, Repr

/-- The fields of `sensu.PluginConfigOption` the source sets (`Value`, a pointer into
`handlerConfig`, is the field of `HandlerConfig` of the same name). -/
structure PluginConfigOption where
  Path : String
  Env : String
  Argument : String
  Shorthand : String
  Default : DefaultValue
  Usage : String
deriving DecidableEq, Repr

/-- The struct `ConfigOptions` of the source. -/
structure ConfigOptions where
  Endpoint : PluginConfigOption
  ClientName : PluginConfigOption
  ClientKeyPath : PluginConfigOption
  SSLPemPath : PluginConfigOption
  SSLVerify : PluginConfigOption
  SensuAPIURL : PluginConfigOption
  SensuAPIKey : PluginConfigOption
  SensuCACert : PluginConfigOption
deriving DecidableEq, Repr

/-- The package-level variable `handlerConfigOptions`. -/
def handlerConfigOptions : ConfigOptions where
  Endpoint :=
    { Path := "endpoint", Env := "CHEF_ENDPOINT", Argument := "endpoint", Shorthand := "e",
      Default := .unset, Usage := "The Chef Server API endpoint (URL)" }
  ClientName :=
    { Path := "client-name", Env := "CHEF_CLIENT_NAME", Argument := "client-name",
      Shorthand := "c", Default := .unset,
      Usage := "The Chef Client name to use when authenticating/querying the Chef Server API" }
  ClientKeyPath :=
    { Path := "client-key-path", Env := "CHEF_CLIENT_KEY_PATH", Argument := "client-key-path",
      Shorthand := "k", Default := .unset,
      Usage := "The path to the Chef Client key to use when authenticating/querying the Chef Server API" }
  SSLPemPath :=
    { Path := "ssl-pem-path", Env := "CHEF_SSL_PEM_PATH", Argument := "ssl-pem-path",
      Shorthand := "p", Default := .unset,
      Usage := "The Chef SSL pem file use when querying the Chef Server API" }
  SSLVerify :=
    { Path := "ssl-verify", Env := "CHEF_SSL_VERIFY", Argument := "ssl-verify",
      Shorthand := "s", Default := .bool true,
      Usage := "If the SSL certificate will be verified when querying the Chef Server API" }
  SensuAPIURL :=
    { Path := "sensu-api-url", Env := "SENSU_API_URL", Argument := "sensu-api-url",
      Shorthand := "", Default := .str "http://localhost:8080", Usage := "The Sensu API URL" }
  SensuAPIKey :=
    { Path := "sensu-api-key", Env := "SENSU_API_KEY", Argument := "sensu-api-key",
      Shorthand := "", Default := .unset, Usage := "The Sensu API key" }
  SensuCACert :=
    { Path := "sensu-ca-cert", Env := "SENSU_CA_CERT", Argument := "sensu-ca-cert",
      Shorthand := "", Default := .unset, Usage := "The Sensu Go CA Certificate" }

/-- The field of `types.Check` the source reads. -/
structure Check where
  Name : String
deriving DecidableEq, Repr

/-- The fields of `types.Entity` the source reads. -/
structure Entity where
  Name : String
  Namespace : String
deriving DecidableEq, Repr

/-- The part of `types.Event` the source reads.  The source dereferences `event.Check`
and `event.Entity` without a nil test, so the embedding covers the events in which both
are present. -/
structure Event where
  Check : Check
  Entity : Entity
deriving DecidableEq, Repr

/-! ## Values exchanged with the libraries -/

/-- The struct `chef.Config` as the source fills it. -/
structure ChefConfig where
  Name : String
  Key : String
  BaseURL : String
  SkipSSL : Bool
deriving DecidableEq, Repr

/-- The request `client.NewRequest(method, url, nil)` builds. -/
structure Request where
  Method : String
  URL : String
deriving DecidableEq, Repr

/-- The fields of `http.Response` the source reads. -/
structure Response where
  StatusCode : Int
  Status : String
deriving DecidableEq, Repr

/-- A parsed `x509.Certificate`, identified by the data it was parsed from. -/
structure Certificate where
  Raw : String
deriving DecidableEq, Repr

/-- The struct `httpclient.CoreClientConfig` as the source fills it. -/
structure CoreClientConfig where
  URL : String
  APIKey : String
  CACert : Option Certificate
deriving DecidableEq, Repr

/-- The arguments of `httpclient.NewResourceRequest`, which identify the request. -/
structure ResourceRequest where
  APIVersion : String
  TypeName : String
  Namespace : String
  Name : String
deriving DecidableEq, Repr

/-- Calls that leave the package, with their arguments. -/
inductive Call where
  | readFile (path : String)
  | chefNewClient (cfg : ChefConfig)
  | chefNewRequest (cfg : ChefConfig) (method url : String)
  | chefDo (cfg : ChefConfig) (req : Request)
  | bodyClose
  | parseCertificate (asn1Data : String)
  | newCoreClient (config : CoreClientConfig)
  | newResourceRequest (apiVersion typeName ns name : String)
  | deleteResource (config : CoreClientConfig) (request : ResourceRequest)
  | println (line : String)
  | logPrintf (line : String)
deriving DecidableEq, Repr

/-- The HTTP request to the Chef Server (`client.Do`). -/
def Call.isChefRequest : Call → Bool
  | .chefDo _ _ => true
  | _ => false

/-- The HTTP DELETE to the Sensu API (`client.DeleteResource`). -/
def Call.isDelete : Call → Bool
  | .deleteResource _ _ => true
  | _ => false

/-- A call into the Sensu httpclient package; only `removeSensuEntity` makes them. -/
def Call.isSensu : Call → Bool
  | .newCoreClient _ => true
  | .newResourceRequest _ _ _ _ => true
  | .deleteResource _ _ => true
  | _ => false

/-- What the code outside the package answers.  A Go function returning `(T, error)` whose
result the source uses only when the error is nil is an `Except`; one returning only an
`error` that matters is an `Option GoError`; `client.Do` keeps both results, since the
source looks at the response also when the error is not nil. -/
structure Env where
  readFile : String → Except GoError String
  chefNewClient : ChefConfig → Option GoError
  chefNewRequest : ChefConfig → String → String → Option GoError
  chefDo : ChefConfig → Request → Option Response × Option GoError
  parseCertificate : String → Option GoError
  newResourceRequest : String → String → String → String → Option GoError
  deleteResource : CoreClientConfig → ResourceRequest → Option GoError

/-- The state of one invocation: the package-level variable `handlerConfig`, the event the
two callbacks are handed a pointer to, and the calls made so far, oldest first. -/
structure World where
  handlerConfig : HandlerConfig
  event : Event
  calls : List Call
deriving DecidableEq, Repr

/-- The world after one more call. -/
def World.record (w : World) (c : Call) : World :=
  { w with calls := w.calls ++ [c] }

/-- The calls made between world `w` and a later world `w2`. -/
def newCalls (w w2 : World) : List Call :=
  w2.calls.drop w.calls.length

/-! ## The functions of `main.go` -/

/-- The function `checkArgs` of the source (lines 136 to 172). -/
def checkArgs (w : World) : Option GoError × World :=
  if w.event.Check.Name ≠ "keepalive" then
    (some (.plain "only keepalive events will be processed by this handler"), w)
  else if len w.handlerConfig.Endpoint = 0 then
    (some (.plain ("--" ++ handlerConfigOptions.Endpoint.Argument ++ " or "
      ++ handlerConfigOptions.Endpoint.Env ++ " environment variable is required")), w)
  else if len w.handlerConfig.ClientName = 0 then
    (some (.plain ("--" ++ handlerConfigOptions.ClientName.Argument ++ " or "
      ++ handlerConfigOptions.ClientName.Env ++ " environment variable is required")), w)
  else if len w.handlerConfig.ClientKeyPath = 0 then
    (some (.plain ("--" ++ handlerConfigOptions.ClientKeyPath.Argument ++ " or "
      ++ handlerConfigOptions.ClientKeyPath.Env ++ " environment variable is required")), w)
  else if len w.handlerConfig.SensuAPIURL = 0 then
    (some (.plain ("--" ++ handlerConfigOptions.SensuAPIURL.Argument ++ " or "
      ++ handlerConfigOptions.SensuAPIURL.Env ++ " environment variable is required")), w)
  else if len w.handlerConfig.SensuAPIKey = 0 then
    (some (.plain ("--" ++ handlerConfigOptions.SensuAPIKey.Argument ++ " or "
      ++ handlerConfigOptions.SensuAPIKey.Env ++ " environment variable is required")), w)
  else
    (none, w)

/-- The function `chefNodeName` of the source (lines 194 to 196). -/
def chefNodeName (w : World) : String :=
  w.event.Entity.Name

/-- The `chef.Config` literal `chefNodeExists` passes to `chef.NewClient`. -/
def chefConfig (w : World) (keyBytes : String) : ChefConfig :=
  { Name := w.handlerConfig.ClientName
    Key := keyBytes
    BaseURL := w.handlerConfig.Endpoint
    SkipSSL := !w.handlerConfig.SSLVerify }

/-- The `requestURL` of `chefNodeExists`: `fmt.Sprintf("%s/nodes/%s", Endpoint, nodeName)`. -/
def requestURL (w : World) (nodeName : String) : String :=
  w.handlerConfig.Endpoint ++ "/nodes/" ++ nodeName

/-- The deferred `res.Body.Close()` of `chefNodeExists`: it runs when the function
returns, if the response was not nil. -/
def closeBody (res : Option Response) (w : World) : World :=
  match res with
  | some _ => w.record .bodyClose
  | none => w

/-- The test `res != nil` followed by `res.StatusCode == 404`. -/
def isNotFound (res : Option Response) : Bool :=
  match res with
  | some r => r.StatusCode = 404
  | none => false

/-- The function `chefNodeExists` of the source (lines 198 to 237). -/
def chefNodeExists (env : Env) (nodeName : String) (w : World) :
    (Bool × Option GoError) × World :=
  let w1 := w.record (.readFile w.handlerConfig.ClientKeyPath)
  match env.readFile w.handlerConfig.ClientKeyPath with
  | .error err =>
    ((true, some (.plain ("couldn't read client key from " ++ w.handlerConfig.ClientKeyPath
      ++ ": " ++ err.Error))), w1)
  | .ok keyBytes =>
    let w2 := w1.record (.chefNewClient (chefConfig w keyBytes))
    match env.chefNewClient (chefConfig w keyBytes) with
    | some err => ((true, some (.plain ("error setting up chef client: " ++ err.Error))), w2)
    | none =>
      let w3 := w2.record (.chefNewRequest (chefConfig w keyBytes) "GET" (requestURL w nodeName))
      match env.chefNewRequest (chefConfig w keyBytes) "GET" (requestURL w nodeName) with
      | some err => ((true, some err), w3)
      | none =>
        let req : Request := { Method := "GET", URL := requestURL w nodeName }
        let w4 := w3.record (.chefDo (chefConfig w keyBytes) req)
        let res := (env.chefDo (chefConfig w keyBytes) req).1
        let err := (env.chefDo (chefConfig w keyBytes) req).2
        let w5 := closeBody res w4
        if isNotFound res then ((false, none), w5)
        else
          match err, res with
          | some e, some r =>
            ((true, some (.plain ("error when retrieving node from chef api: " ++ r.Status
              ++ " -- " ++ e.Error))), w5)
          | some e, none =>
            ((true, some (.plain ("error when retrieving node from chef api: " ++ e.Error))), w5)
          | none, _ => ((true, none), w5)

/-- How a Chef lookup ended: the first answer of the libraries that made `chefNodeExists`
leave, following the order of its calls (read the key, build the client, build the
request, send it). -/
inductive Lookup where
  | keyUnreadable (err : GoError)
  | clientFailed (err : GoError)
  | requestFailed (err : GoError)
  | answered (res : Option Response) (err : Option GoError)
deriving DecidableEq, Repr

/-- The lookup `chefNodeExists env nodeName w` goes through. -/
def chefLookup (env : Env) (nodeName : String) (w : World) : Lookup :=
  match env.readFile w.handlerConfig.ClientKeyPath with
  | .error err => .keyUnreadable err
  | .ok keyBytes =>
    match env.chefNewClient (chefConfig w keyBytes) with
    | some err => .clientFailed err
    | none =>
      match env.chefNewRequest (chefConfig w keyBytes) "GET" (requestURL w nodeName) with
      | some err => .requestFailed err
      | none =>
        .answered (env.chefDo (chefConfig w keyBytes) ⟨"GET", requestURL w nodeName⟩).1
          (env.chefDo (chefConfig w keyBytes) ⟨"GET", requestURL w nodeName⟩).2

/-- The lookup got an HTTP response with status code 404. -/
def Lookup.is404 : Lookup → Bool
  | .answered (some r) _ => r.StatusCode = 404
  | _ => false

/-- The lookup ended in an error other than a 404 response: the key file could not be
read, the client or the request could not be built, or `client.Do` returned an error
(a transport error without response, or an error with a response whose status is not
404, such as a 5xx). -/
def Lookup.isError : Lookup → Bool
  | .keyUnreadable _ => true
  | .clientFailed _ => true
  | .requestFailed _ => true
  | .answered (some r) (some _) => r.StatusCode ≠ 404
  | .answered none (some _) => true
  | .answered _ none => false

/-- The part of `removeSensuEntity` from `httpclient.NewCoreClient` on (lines 257 to 272),
entered with the client configuration built before it. -/
def deleteEntity (env : Env) (config : CoreClientConfig) (w : World) : Option GoError × World :=
  let w1 := w.record (.newCoreClient config)
  let w2 := w1.record
    (.newResourceRequest "core/v2" "Entity" w.event.Entity.Namespace w.event.Entity.Name)
  match env.newResourceRequest "core/v2" "Entity" w.event.Entity.Namespace
      w.event.Entity.Name with
  | some err => (some err, w2)
  | none =>
    let request : ResourceRequest :=
      { APIVersion := "core/v2", TypeName := "Entity",
        Namespace := w.event.Entity.Namespace, Name := w.event.Entity.Name }
    let w3 := w2.record (.deleteResource config request)
    match env.deleteResource config request with
    | some err =>
      match err.asHTTPError with
      | some StatusCode =>
        if StatusCode < 500 then
          (none, w3.record (.logPrintf ("entity already deleted (" ++ w.event.Entity.Namespace
            ++ "/" ++ w.event.Entity.Name ++ ")")))
        else (some err, w3)
      | none => (some err, w3)
    | none => (none, w3)

/-- The function `removeSensuEntity` of the source (lines 239 to 273); its tail from line
257 on is `deleteEntity`. -/
def removeSensuEntity (env : Env) (w : World) : Option GoError × World :=
  let config : CoreClientConfig :=
    { URL := w.handlerConfig.SensuAPIURL, APIKey := w.handlerConfig.SensuAPIKey, CACert := none }
  if w.handlerConfig.SensuCACert ≠ "" then
    let w1 := w.record (.readFile w.handlerConfig.SensuCACert)
    match env.readFile w.handlerConfig.SensuCACert with
    | .error err => (some (.plain ("unable to load sensu-ca-cert: " ++ err.Error)), w1)
    | .ok asn1Data =>
      let w2 := w1.record (.parseCertificate asn1Data)
      match env.parseCertificate asn1Data with
      | some err => (some (.plain ("invalid sensu-ca-cert: " ++ err.Error)), w2)
      | none => deleteEntity env { config with CACert := some { Raw := asn1Data } } w2
  else
    deleteEntity env config w

/-- The function `executeHandler` of the source (lines 174 to 192). -/
def executeHandler (env : Env) (w : World) : Option GoError × World :=
  let nodeName := chefNodeName w
  let r := chefNodeExists env nodeName w
  match r.1.2 with
  | some err => (some err, r.2)
  | none =>
    if r.1.1 then
      (none, r.2.record (.println ("chef node exists: " ++ nodeName ++ "\n")))
    else
      let w2 := r.2.record (.println "chef node does not exist, removing the sensu entity\n")
      match removeSensuEntity env w2 with
      | (some err, w3) => (some err, w3)
      | (none, w3) => (none, w3)

/-! ## The words of the specification -/

/-- The five required settings in the order the specification lists them, each with the
flag and the environment variable that set it. -/
def requiredSettings (c : HandlerConfig) : List (String × String × String) :=
  [ (c.Endpoint, "endpoint", "CHEF_ENDPOINT"),
    (c.ClientName, "client-name", "CHEF_CLIENT_NAME"),
    (c.ClientKeyPath, "client-key-path", "CHEF_CLIENT_KEY_PATH"),
    (c.SensuAPIURL, "sensu-api-url", "SENSU_API_URL"),
    (c.SensuAPIKey, "sensu-api-key", "SENSU_API_KEY") ]

/-- The flag and environment variable of the first required setting that is empty. -/
def firstMissing (c : HandlerConfig) : Option (String × String) :=
  ((requiredSettings c).find? (fun f => f.1 = "")).map (fun f => f.2)

/-- What the specification makes of the outcome of the DELETE: success, and an
`HTTPError` with a status code below 500, are success; every other error is returned. -/
def deleteVerdict : Option GoError → Option GoError
  | none => none
  | some (.httpError StatusCode msg) =>
    if StatusCode < 500 then none else some (.httpError StatusCode msg)
  | some (.plain msg) => some (.plain msg)

/-- The claim's condition on the CA certificate: `SensuCACert` is set and the file cannot
be read or its contents do not parse as a certificate. -/
def caCertFails (env : Env) (w : World) : Bool :=
  decide (w.handlerConfig.SensuCACert ≠ "") &&
    match env.readFile w.handlerConfig.SensuCACert with
    | .error _ => true
    | .ok asn1Data => (env.parseCertificate asn1Data).isSome

/-- The fact about `httpclient.NewResourceRequest` the source relies on at line 258: the
library resolves the resource type from the API version and the type name alone, and the
two literals the source passes, "core/v2" and "Entity", always resolve, whatever the
namespace and the name. -/
def resolvesEntity (env : Env) : Prop :=
  ∀ ns name : String, env.newResourceRequest "core/v2" "Entity" ns name = none

/-! ## Concrete invocations -/

/-- The package-level variable `handlerConfig` as the source initialises it, before any
flag or environment variable is read. -/
def handlerConfig : HandlerConfig :=
  { PluginConfig :=
      { Name := "sensu-chef-handler"
        Short := "A Chef keepalive handler for Sensu"
        Timeout := 10
        Keyspace := "sensu.io/plugins/sensu-chef-handler/config" }
    Endpoint := ""
    ClientName := ""
    ClientKeyPath := ""
    SSLPemPath := ""
    SSLVerify := false
    SensuAPIURL := ""
    SensuAPIKey := ""
    SensuCACert := "" }

/-- A complete configuration, without CA certificate. -/
def sampleConfig : HandlerConfig :=
  { handlerConfig with
    Endpoint := "https://chef.example.com/organizations/acme"
    ClientName := "sensu"
    ClientKeyPath := "/etc/chef/sensu.pem"
    SSLVerify := true
    SensuAPIURL := "http://localhost:8080"
    SensuAPIKey := "secret" }

/-- A keepalive event for the entity `web-01` in the namespace `default`. -/
def sampleEvent : Event :=
  { Check := { Name := "keepalive" }, Entity := { Name := "web-01", Namespace := "default" } }

/-- The start of an invocation with `sampleConfig` and `sampleEvent`. -/
def sampleWorld : World :=
  { handlerConfig := sampleConfig, event := sampleEvent, calls := [] }

/-- The same invocation with `SensuCACert` pointing to a file. -/
def sampleWorldCA : World :=
  { sampleWorld with
    handlerConfig := { sampleConfig with SensuCACert := "/etc/sensu/ca.pem" } }

/-- An environment in which every file but `/etc/sensu/ca.pem` can be read, the Chef client,
the Chef request and the Sensu resource request can be built, the Chef Server gives
`chefAnswer` and the Sensu API gives `deleteAnswer`. -/
def sampleEnv (chefAnswer : Option Response × Option GoError) (deleteAnswer : Option GoError) :
    Env :=
  { readFile := fun path =>
      if path = "/etc/sensu/ca.pem" then
        .error (.plain "open /etc/sensu/ca.pem: no such file or directory")
      else .ok "key"
    chefNewClient := fun _ => none
    chefNewRequest := fun _ _ _ => none
    chefDo := fun _ _ => chefAnswer
    parseCertificate := fun _ => none
    newResourceRequest := fun _ _ _ _ => none
    deleteResource := fun _ _ => deleteAnswer }

/-- The answer of go-chef to a 200 response. -/
def answer200 : Option Response × Option GoError :=
  (some { StatusCode := 200, Status := "200 OK" }, none)

/-- The answer of go-chef to a 404 response: the response and an error. -/
def answer404 : Option Response × Option GoError :=
  (some { StatusCode := 404, Status := "404 Not Found" },
    some (.plain "GET https://chef.example.com/organizations/acme/nodes/web-01: 404"))

/-- The answer of go-chef to a 503 response: the response and an error. -/
def answer503 : Option Response × Option GoError :=
  (some { StatusCode := 503, Status := "503 Service Unavailable" },
    some (.plain "GET https://chef.example.com/organizations/acme/nodes/web-01: 503"))

/-! ## Auxiliary facts -/

theorem utf8Size_pos (c : Char) : 0 < c.utf8Size := by
  unfold Char.utf8Size
  simp only
  split_ifs <;> decide

theorem len_eq_zero_iff (s : String) : len s = 0 ↔ s = "" := by
  unfold len
  cases s with
  | mk data =>
    cases data with
    | nil => simp [String.utf8ByteSize, String.utf8ByteSize.go]
    | cons c cs =>
      have hc := utf8Size_pos c
      constructor
      · intro h0
        simp only [String.utf8ByteSize, String.utf8ByteSize.go] at h0
        omega
      · intro h0
        have hd := congrArg String.data h0
        simp at hd

theorem isSensu_of_isDelete (c : Call) (h : c.isDelete = true) : c.isSensu = true := by
  cases c <;> simp_all [Call.isDelete, Call.isSensu]

theorem no_delete_of_no_sensu (l : List Call) (h : ∀ c ∈ l, c.isSensu = false) :
    l.filter Call.isDelete = [] := by
  rw [List.filter_eq_nil_iff]
  intro c hc hd
  have := isSensu_of_isDelete c hd
  rw [h c hc] at this
  exact Bool.noConfusion this

theorem is404_iff (l : Lookup) :
    l.is404 = true ↔ ∃ r err, l = .answered (some r) err ∧ r.StatusCode = 404 := by
  cases l with
  | keyUnreadable e => simp [Lookup.is404]
  | clientFailed e => simp [Lookup.is404]
  | requestFailed e => simp [Lookup.is404]
  | answered res err =>
    cases res with
    | none => simp [Lookup.is404]
    | some r => simp [Lookup.is404]

/-- The world `chefNodeExists` leaves: the one it found, with the calls it made added;
none of them goes to the Sensu API, and the request to the Chef Server is among them
exactly when the lookup got as far as sending it. -/
theorem chefNodeExists_world (env : Env) (nodeName : String) (w : World) :
    ∃ made : List Call,
      (chefNodeExists env nodeName w).2 = { w with calls := w.calls ++ made }
      ∧ (∀ c ∈ made, c.isSensu = false)
      ∧ ((∃ c ∈ made, c.isChefRequest = true)
          ↔ ∃ res err, chefLookup env nodeName w = .answered res err) := by
  unfold chefNodeExists chefLookup
  cases hk : env.readFile w.handlerConfig.ClientKeyPath with
  | error err => exact ⟨_, rfl, by simp [Call.isSensu], by simp [Call.isChefRequest]⟩
  | ok keyBytes =>
    cases hc : env.chefNewClient (chefConfig w keyBytes) with
    | some err =>
      exact ⟨[.readFile w.handlerConfig.ClientKeyPath, .chefNewClient (chefConfig w keyBytes)],
        by simp [World.record, hc],
        by simp [Call.isSensu], by simp [Call.isChefRequest, hc]⟩
    | none =>
      cases hr : env.chefNewRequest (chefConfig w keyBytes) "GET" (requestURL w nodeName) with
      | some err =>
        exact ⟨[.readFile w.handlerConfig.ClientKeyPath, .chefNewClient (chefConfig w keyBytes),
            .chefNewRequest (chefConfig w keyBytes) "GET" (requestURL w nodeName)],
          by simp [World.record, hc, hr], by simp [Call.isSensu],
          by simp [Call.isChefRequest, hc, hr]⟩
      | none =>
        cases hres : (env.chefDo (chefConfig w keyBytes) ⟨"GET", requestURL w nodeName⟩).1 with
        | none =>
          refine ⟨[.readFile w.handlerConfig.ClientKeyPath, .chefNewClient (chefConfig w keyBytes),
            .chefNewRequest (chefConfig w keyBytes) "GET" (requestURL w nodeName),
            .chefDo (chefConfig w keyBytes) ⟨"GET", requestURL w nodeName⟩], ?_, ?_, ?_⟩
          · simp only [hc, hr, hres, closeBody, isNotFound]
            cases (env.chefDo (chefConfig w keyBytes) ⟨"GET", requestURL w nodeName⟩).2 <;>
              simp [World.record]
          · simp [Call.isSensu]
          · simp [Call.isChefRequest, hc, hr]
        | some r =>
          refine ⟨[.readFile w.handlerConfig.ClientKeyPath, .chefNewClient (chefConfig w keyBytes),
            .chefNewRequest (chefConfig w keyBytes) "GET" (requestURL w nodeName),
            .chefDo (chefConfig w keyBytes) ⟨"GET", requestURL w nodeName⟩, .bodyClose],
            ?_, ?_, ?_⟩
          · simp only [hc, hr, hres, closeBody, isNotFound]
            cases (env.chefDo (chefConfig w keyBytes) ⟨"GET", requestURL w nodeName⟩).2 <;>
              split_ifs <;> simp [World.record]
          · simp [Call.isSensu]
          · simp [Call.isChefRequest, hc, hr]

/-- What `chefNodeExists` returns, read off the lookup: `(false, nil)` for a 404
response, `true` with an error for a lookup that ended in an error, `(true, nil)` for
the rest. -/
theorem chefNodeExists_result (env : Env) (nodeName : String) (w : World) :
    ((chefLookup env nodeName w).is404 = true
        → (chefNodeExists env nodeName w).1 = (false, none))
    ∧ ((chefLookup env nodeName w).isError = true
        → ∃ e, (chefNodeExists env nodeName w).1 = (true, some e))
    ∧ ((chefLookup env nodeName w).is404 = false
        → (chefLookup env nodeName w).isError = false
        → (chefNodeExists env nodeName w).1 = (true, none)) := by
  unfold chefNodeExists chefLookup
  cases hk : env.readFile w.handlerConfig.ClientKeyPath with
  | error err => simp [Lookup.is404, Lookup.isError]
  | ok keyBytes =>
    cases hc : env.chefNewClient (chefConfig w keyBytes) with
    | some err => simp [Lookup.is404, Lookup.isError, hc]
    | none =>
      cases hr : env.chefNewRequest (chefConfig w keyBytes) "GET" (requestURL w nodeName) with
      | some err => simp [Lookup.is404, Lookup.isError, hc, hr]
      | none =>
        cases hres : (env.chefDo (chefConfig w keyBytes) ⟨"GET", requestURL w nodeName⟩).1 <;>
          cases herr : (env.chefDo (chefConfig w keyBytes) ⟨"GET", requestURL w nodeName⟩).2 <;>
          simp [Lookup.is404, Lookup.isError, isNotFound, hc, hr, hres, herr] <;>
          split_ifs <;> simp_all

/-- What the part of `removeSensuEntity` from `NewCoreClient` on does: it adds its calls
to the world, the first being `NewCoreClient`; a DELETE among them is the one for the
event's entity with the configuration handed in, and the result is then the verdict on its
outcome; the DELETE is issued once if the resource request could be built and not at all
(the error being returned) if it could not; no file is read. -/
theorem deleteEntity_spec (env : Env) (config : CoreClientConfig) (w : World) :
    ∃ made : List Call,
      (deleteEntity env config w).2 = { w with calls := w.calls ++ made }
      ∧ made ≠ []
      ∧ (∀ cfg req, Call.deleteResource cfg req ∈ made →
          (deleteEntity env config w).1 = deleteVerdict (env.deleteResource cfg req))
      ∧ (env.newResourceRequest "core/v2" "Entity" w.event.Entity.Namespace
            w.event.Entity.Name = none →
          made.filter Call.isDelete
            = [.deleteResource config
                ⟨"core/v2", "Entity", w.event.Entity.Namespace, w.event.Entity.Name⟩])
      ∧ (∀ err, env.newResourceRequest "core/v2" "Entity" w.event.Entity.Namespace
            w.event.Entity.Name = some err →
          (deleteEntity env config w).1 = some err ∧ made.filter Call.isDelete = [])
      ∧ (∀ c ∈ made, ∀ path, c ≠ .readFile path) := by
  unfold deleteEntity
  cases hq : env.newResourceRequest "core/v2" "Entity" w.event.Entity.Namespace
      w.event.Entity.Name with
  | some err =>
    exact ⟨[.newCoreClient config,
        .newResourceRequest "core/v2" "Entity" w.event.Entity.Namespace w.event.Entity.Name],
      by simp [World.record], by simp, by simp, by simp, by simp [Call.isDelete], by simp⟩
  | none =>
    cases hd : env.deleteResource config
        ⟨"core/v2", "Entity", w.event.Entity.Namespace, w.event.Entity.Name⟩ with
    | none =>
      exact ⟨[.newCoreClient config,
          .newResourceRequest "core/v2" "Entity" w.event.Entity.Namespace w.event.Entity.Name,
          .deleteResource config
            ⟨"core/v2", "Entity", w.event.Entity.Namespace, w.event.Entity.Name⟩],
        by simp [World.record, hd], by simp,
        by
          intro cfg req hmem
          simp at hmem
          obtain ⟨rfl, rfl⟩ := hmem
          simp [hd, deleteVerdict],
        by simp [Call.isDelete], by simp, by simp⟩
    | some err =>
      cases err with
      | plain msg =>
        exact ⟨[.newCoreClient config,
            .newResourceRequest "core/v2" "Entity" w.event.Entity.Namespace w.event.Entity.Name,
            .deleteResource config
              ⟨"core/v2", "Entity", w.event.Entity.Namespace, w.event.Entity.Name⟩],
          by simp [World.record, GoError.asHTTPError, hd], by simp,
          by
            intro cfg req hmem
            simp at hmem
            obtain ⟨rfl, rfl⟩ := hmem
            simp [hd, deleteVerdict, GoError.asHTTPError],
          by simp [Call.isDelete], by simp, by simp⟩
      | httpError code msg =>
        by_cases hlt : code < 500
        · exact ⟨[.newCoreClient config,
              .newResourceRequest "core/v2" "Entity" w.event.Entity.Namespace w.event.Entity.Name,
              .deleteResource config
                ⟨"core/v2", "Entity", w.event.Entity.Namespace, w.event.Entity.Name⟩,
              .logPrintf ("entity already deleted (" ++ w.event.Entity.Namespace
                ++ "/" ++ w.event.Entity.Name ++ ")")],
            by simp [World.record, GoError.asHTTPError, hlt, hd], by simp,
            by
              intro cfg req hmem
              simp at hmem
              obtain ⟨rfl, rfl⟩ := hmem
              simp [hd, deleteVerdict, GoError.asHTTPError, hlt],
            by simp [Call.isDelete], by simp, by simp⟩
        · exact ⟨[.newCoreClient config,
              .newResourceRequest "core/v2" "Entity" w.event.Entity.Namespace w.event.Entity.Name,
              .deleteResource config
                ⟨"core/v2", "Entity", w.event.Entity.Namespace, w.event.Entity.Name⟩],
            by simp [World.record, GoError.asHTTPError, hlt, hd], by simp,
            by
              intro cfg req hmem
              simp at hmem
              obtain ⟨rfl, rfl⟩ := hmem
              simp [hd, deleteVerdict, GoError.asHTTPError, hlt],
            by simp [Call.isDelete], by simp, by simp⟩

/-- Every run of `removeSensuEntity` adds at least one call to the world and changes
nothing else; if a DELETE is among the calls, the result is the verdict on its outcome. -/
theorem removeSensuEntity_world (env : Env) (w : World) :
    ∃ made : List Call,
      (removeSensuEntity env w).2 = { w with calls := w.calls ++ made }
      ∧ made ≠ []
      ∧ (∀ cfg req, Call.deleteResource cfg req ∈ made →
          (removeSensuEntity env w).1 = deleteVerdict (env.deleteResource cfg req)) := by
  unfold removeSensuEntity
  by_cases hca : w.handlerConfig.SensuCACert ≠ ""
  · rw [if_pos hca]
    cases hf : env.readFile w.handlerConfig.SensuCACert with
    | error err =>
      exact ⟨[.readFile w.handlerConfig.SensuCACert], by simp [World.record], by simp, by simp⟩
    | ok asn1Data =>
      cases hp : env.parseCertificate asn1Data with
      | some err =>
        exact ⟨[.readFile w.handlerConfig.SensuCACert, .parseCertificate asn1Data],
          by simp [World.record, hp], by simp, by simp⟩
      | none =>
        obtain ⟨made, hw, hne, hv, -⟩ := deleteEntity_spec env
          { URL := w.handlerConfig.SensuAPIURL, APIKey := w.handlerConfig.SensuAPIKey,
            CACert := some { Raw := asn1Data } }
          ((w.record (.readFile w.handlerConfig.SensuCACert)).record (.parseCertificate asn1Data))
        refine ⟨[.readFile w.handlerConfig.SensuCACert, .parseCertificate asn1Data] ++ made,
          ?_, by simp, ?_⟩
        · simp only [hp]
          rw [hw]
          simp [World.record]
        · intro cfg req hmem
          simp only [hp]
          apply hv
          simpa using hmem
  · rw [if_neg hca]
    obtain ⟨made, hw, hne, hv, -⟩ := deleteEntity_spec env
      { URL := w.handlerConfig.SensuAPIURL, APIKey := w.handlerConfig.SensuAPIKey,
        CACert := none } w
    exact ⟨made, hw, hne, hv⟩

/-- Where `removeSensuEntity` stops before the DELETE and where it issues it: an unreadable
or invalid CA certificate and a resource request that cannot be built end it with an error
and without DELETE; otherwise exactly one DELETE goes out, for the event's entity, and the
result is the verdict on its outcome.  Without `SensuCACert` no file is read. -/
theorem removeSensuEntity_cases (env : Env) (w : World) :
    (∀ err, w.handlerConfig.SensuCACert ≠ "" →
        env.readFile w.handlerConfig.SensuCACert = .error err →
        (removeSensuEntity env w).1
            = some (.plain ("unable to load sensu-ca-cert: " ++ err.Error))
          ∧ (newCalls w (removeSensuEntity env w).2).filter Call.isDelete = [])
    ∧ (∀ asn1Data err, w.handlerConfig.SensuCACert ≠ "" →
        env.readFile w.handlerConfig.SensuCACert = .ok asn1Data →
        env.parseCertificate asn1Data = some err →
        (removeSensuEntity env w).1 = some (.plain ("invalid sensu-ca-cert: " ++ err.Error))
          ∧ (newCalls w (removeSensuEntity env w).2).filter Call.isDelete = [])
    ∧ (w.handlerConfig.SensuCACert = "" →
        ∀ c ∈ newCalls w (removeSensuEntity env w).2, ∀ path, c ≠ .readFile path)
    ∧ (caCertFails env w = false →
        env.newResourceRequest "core/v2" "Entity" w.event.Entity.Namespace
          w.event.Entity.Name = none →
        ∃ config : CoreClientConfig,
          config.URL = w.handlerConfig.SensuAPIURL
          ∧ config.APIKey = w.handlerConfig.SensuAPIKey
          ∧ (newCalls w (removeSensuEntity env w).2).filter Call.isDelete
              = [.deleteResource config
                  ⟨"core/v2", "Entity", w.event.Entity.Namespace, w.event.Entity.Name⟩]
          ∧ (removeSensuEntity env w).1
              = deleteVerdict (env.deleteResource config
                  ⟨"core/v2", "Entity", w.event.Entity.Namespace, w.event.Entity.Name⟩))
    ∧ (∀ err, caCertFails env w = false →
        env.newResourceRequest "core/v2" "Entity" w.event.Entity.Namespace
          w.event.Entity.Name = some err →
        (removeSensuEntity env w).1 = some err
          ∧ (newCalls w (removeSensuEntity env w).2).filter Call.isDelete = []) := by
  unfold removeSensuEntity caCertFails
  by_cases hca : w.handlerConfig.SensuCACert ≠ ""
  · rw [if_pos hca]
    cases hf : env.readFile w.handlerConfig.SensuCACert with
    | error err =>
      refine ⟨?_, ?_, fun h => absurd h hca, ?_, ?_⟩
      · intro err2 _ h
        cases h
        simp [newCalls, World.record, Call.isDelete]
      · intro d err2 _ h
        cases h
      · intro h
        simp [hca] at h
      · intro err2 h
        simp [hca] at h
    | ok asn1Data =>
      cases hp : env.parseCertificate asn1Data with
      | some err =>
        refine ⟨?_, ?_, fun h => absurd h hca, ?_, ?_⟩
        · intro err2 _ h
          cases h
        · intro d err2 _ h hpe
          cases h
          rw [hp] at hpe
          cases hpe
          simp [hp, newCalls, World.record, Call.isDelete]
        · intro h
          simp [hca, hp] at h
        · intro err2 h
          simp [hca, hp] at h
      | none =>
        obtain ⟨made, hw, -, hv, hone, hnone, -⟩ := deleteEntity_spec env
          { URL := w.handlerConfig.SensuAPIURL, APIKey := w.handlerConfig.SensuAPIKey,
            CACert := some { Raw := asn1Data } }
          ((w.record (.readFile w.handlerConfig.SensuCACert)).record (.parseCertificate asn1Data))
        have hn : newCalls w (deleteEntity env
            { URL := w.handlerConfig.SensuAPIURL, APIKey := w.handlerConfig.SensuAPIKey,
              CACert := some { Raw := asn1Data } }
            ((w.record (.readFile w.handlerConfig.SensuCACert)).record
              (.parseCertificate asn1Data))).2
            = [.readFile w.handlerConfig.SensuCACert, .parseCertificate asn1Data] ++ made := by
          rw [hw]
          simp [newCalls, World.record]
        simp only [hp, hn]
        simp only [World.record] at hv hone hnone ⊢
        refine ⟨?_, ?_, fun h => absurd h hca, ?_, ?_⟩
        · intro err2 _ h
          cases h
        · intro d err2 _ h hpe
          cases h
          rw [hp] at hpe
          cases hpe
        · intro _ hq
          have h1 := hone hq
          refine ⟨CoreClientConfig.mk w.handlerConfig.SensuAPIURL w.handlerConfig.SensuAPIKey
            (some ⟨asn1Data⟩), rfl, rfl, ?_, ?_⟩
          · simpa [Call.isDelete] using h1
          · apply hv
            have hm : Call.deleteResource
                { URL := w.handlerConfig.SensuAPIURL, APIKey := w.handlerConfig.SensuAPIKey,
                  CACert := some { Raw := asn1Data } }
                ⟨"core/v2", "Entity", w.event.Entity.Namespace, w.event.Entity.Name⟩
                ∈ made.filter Call.isDelete := by
              rw [h1]
              simp
            exact (List.mem_filter.mp hm).1
        · intro err _ hq
          have h1 := hnone err hq
          exact ⟨h1.1, by simpa [Call.isDelete] using h1.2⟩
  · rw [if_neg hca]
    obtain ⟨made, hw, -, hv, hone, hnone, hread⟩ := deleteEntity_spec env
      { URL := w.handlerConfig.SensuAPIURL, APIKey := w.handlerConfig.SensuAPIKey,
        CACert := none } w
    have hn : newCalls w (deleteEntity env
        { URL := w.handlerConfig.SensuAPIURL, APIKey := w.handlerConfig.SensuAPIKey,
          CACert := none } w).2 = made := by
      rw [hw]
      simp [newCalls]
    simp only [hn]
    refine ⟨fun _ h => absurd h hca, fun _ _ h => absurd h hca, fun _ => hread, ?_, ?_⟩
    · intro _ hq
      have h1 := hone hq
      refine ⟨CoreClientConfig.mk w.handlerConfig.SensuAPIURL w.handlerConfig.SensuAPIKey none,
        rfl, rfl, h1, ?_⟩
      apply hv
      have hm : Call.deleteResource
          { URL := w.handlerConfig.SensuAPIURL, APIKey := w.handlerConfig.SensuAPIKey,
            CACert := none }
          ⟨"core/v2", "Entity", w.event.Entity.Namespace, w.event.Entity.Name⟩
          ∈ made.filter Call.isDelete := by
        rw [h1]
        simp
      exact (List.mem_filter.mp hm).1
    · intro err _ hq
      exact hnone err hq

/-- The three branches of `executeHandler`, by what `chefNodeExists` returned. -/
theorem executeHandler_branches (env : Env) (w : World) :
    (∀ e, (chefNodeExists env (chefNodeName w) w).1.2 = some e →
        executeHandler env w = (some e, (chefNodeExists env (chefNodeName w) w).2))
    ∧ ((chefNodeExists env (chefNodeName w) w).1 = (true, none) →
        executeHandler env w
          = (none, (chefNodeExists env (chefNodeName w) w).2.record
              (.println ("chef node exists: " ++ chefNodeName w ++ "\n"))))
    ∧ ((chefNodeExists env (chefNodeName w) w).1 = (false, none) →
        executeHandler env w
          = removeSensuEntity env ((chefNodeExists env (chefNodeName w) w).2.record
              (.println "chef node does not exist, removing the sensu entity\n"))) := by
  refine ⟨?_, ?_, ?_⟩
  · intro e he
    unfold executeHandler
    simp only [he]
  · intro h
    have h1 : (chefNodeExists env (chefNodeName w) w).1.1 = true := by rw [h]
    have h2 : (chefNodeExists env (chefNodeName w) w).1.2 = none := by rw [h]
    unfold executeHandler
    simp only [h1, h2, if_true]
  · intro h
    have h1 : (chefNodeExists env (chefNodeName w) w).1.1 = false := by rw [h]
    have h2 : (chefNodeExists env (chefNodeName w) w).1.2 = none := by rw [h]
    unfold executeHandler
    simp only [h1, h2]
    generalize removeSensuEntity env _ = r
    rcases r with ⟨_ | e, w3⟩ <;> simp

/-- When `chefNodeExists` returns `(false, nil)`, `executeHandler` prints its notice and
hands over to `removeSensuEntity`, in a world with the same configuration and event; the
DELETEs of the invocation are those of `removeSensuEntity`. -/
theorem executeHandler_absent (env : Env) (w : World)
    (h : (chefNodeExists env (chefNodeName w) w).1 = (false, none)) :
    ∃ w2 : World,
      w2 = (chefNodeExists env (chefNodeName w) w).2.record
            (.println "chef node does not exist, removing the sensu entity\n")
      ∧ w2.handlerConfig = w.handlerConfig
      ∧ w2.event = w.event
      ∧ executeHandler env w = removeSensuEntity env w2
      ∧ (newCalls w (executeHandler env w).2).filter Call.isDelete
          = (newCalls w2 (removeSensuEntity env w2).2).filter Call.isDelete := by
  have hb := (executeHandler_branches env w).2.2 h
  obtain ⟨made, hw, hs, -⟩ := chefNodeExists_world env (chefNodeName w) w
  refine ⟨_, rfl, by rw [hw]; rfl, by rw [hw]; rfl, hb, ?_⟩
  obtain ⟨made2, hw2, -, -⟩ := removeSensuEntity_world env
    ((chefNodeExists env (chefNodeName w) w).2.record
      (.println "chef node does not exist, removing the sensu entity\n"))
  rw [hb, hw2, hw]
  simp [newCalls, World.record, Call.isDelete, no_delete_of_no_sensu made hs]

theorem caCertFails_congr (env : Env) (w w2 : World)
    (h : w2.handlerConfig = w.handlerConfig) : caCertFails env w2 = caCertFails env w := by
  unfold caCertFails
  rw [h]

/-! ## `checkArgs` -/

/-- Claim C6: `checkArgs` returns nil exactly when the check name is "keepalive" and the
five required settings are non-empty; it leaves the world (configuration, event, calls) as
it found it; and its result does not depend on `SSLPemPath`, `SSLVerify`, `SensuCACert`,
the plugin description or the event's entity. -/
theorem checkArgs_nil_iff (w : World) :
    ((checkArgs w).1 = none ↔
      (w.event.Check.Name = "keepalive" ∧ w.handlerConfig.Endpoint ≠ ""
        ∧ w.handlerConfig.ClientName ≠ "" ∧ w.handlerConfig.ClientKeyPath ≠ ""
        ∧ w.handlerConfig.SensuAPIURL ≠ "" ∧ w.handlerConfig.SensuAPIKey ≠ ""))
    ∧ (checkArgs w).2 = w
    ∧ ∀ (pc : PluginConfig) (pem : String) (verify : Bool) (cacert : String) (entity : Entity)
        (calls : List Call),
        (checkArgs
          { handlerConfig :=
              { w.handlerConfig with
                PluginConfig := pc, SSLPemPath := pem, SSLVerify := verify, SensuCACert := cacert }
            event := { w.event with Entity := entity }
            calls := calls }).1 = (checkArgs w).1 := by
  refine ⟨?_, ?_, ?_⟩
  · unfold checkArgs
    simp only [len_eq_zero_iff]
    split_ifs <;> simp_all
  · unfold checkArgs
    split_ifs <;> rfl
  · intro pc pem verify cacert entity calls
    unfold checkArgs
    simp only [len_eq_zero_iff]
    split_ifs <;> rfl

/-- Claim C7: for an event whose check name is not "keepalive", whatever the
configuration, `checkArgs` returns the error "only keepalive events will be processed
by this handler" and leaves the world unchanged, so it has made no call at all. -/
theorem checkArgs_rejects_other_checks (w : World)
    (h : w.event.Check.Name ≠ "keepalive") :
    checkArgs w
        = (some (.plain "only keepalive events will be processed by this handler"), w)
      ∧ newCalls w (checkArgs w).2 = [] := by
  have h1 : checkArgs w
      = (some (.plain "only keepalive events will be processed by this handler"), w) := by
    unfold checkArgs
    rw [if_pos h]
  refine ⟨h1, ?_⟩
  rw [h1]
  simp [newCalls]

/-- Claim C7 at the configuration the source starts from (every required setting empty)
and an event of the check `disk`. -/
theorem checkArgs_rejects_other_checks_witness :
    (⟨handlerConfig, ⟨⟨"disk"⟩, ⟨"web-01", "default"⟩⟩, []⟩ : World).event.Check.Name
        ≠ "keepalive"
      ∧ (checkArgs ⟨handlerConfig, ⟨⟨"disk"⟩, ⟨"web-01", "default"⟩⟩, []⟩).1
          = some (.plain "only keepalive events will be processed by this handler") :=
  ⟨by decide,
    congrArg Prod.fst
      (checkArgs_rejects_other_checks ⟨handlerConfig, ⟨⟨"disk"⟩, ⟨"web-01", "default"⟩⟩, []⟩
        (by decide)).1⟩

/-- Claim C8: for a keepalive event and a configuration in which at least one of the five
required settings is empty, `checkArgs` returns the error
"--<argument> or <ENV> environment variable is required" for the first empty setting in
the order endpoint, client-name, client-key-path, sensu-api-url, sensu-api-key. -/
theorem checkArgs_names_first_missing (w : World)
    (hk : w.event.Check.Name = "keepalive")
    (hm : ∃ f ∈ requiredSettings w.handlerConfig, f.1 = "") :
    ∃ argument envName,
      firstMissing w.handlerConfig = some (argument, envName)
      ∧ (∃ value, (value, argument, envName) ∈ requiredSettings w.handlerConfig ∧ value = "")
      ∧ (checkArgs w).1
          = some (.plain ("--" ++ argument ++ " or " ++ envName
              ++ " environment variable is required")) := by
  obtain ⟨hc, ev, calls⟩ := w
  obtain ⟨pc, endpoint, clientName, keyPath, pem, verify, url, key, cacert⟩ := hc
  simp only at hk
  simp only [requiredSettings, List.mem_cons, List.mem_singleton, List.not_mem_nil,
    or_false, exists_eq_or_imp, exists_eq_left] at hm
  unfold checkArgs firstMissing requiredSettings handlerConfigOptions
  simp only [len_eq_zero_iff, hk, ne_eq, not_true_eq_false, if_false]
  by_cases h1 : endpoint = ""
  · exact ⟨"endpoint", "CHEF_ENDPOINT", by simp [h1], ⟨endpoint, by simp, h1⟩, by simp [h1]⟩
  by_cases h2 : clientName = ""
  · exact ⟨"client-name", "CHEF_CLIENT_NAME", by simp [h1, h2], ⟨clientName, by simp, h2⟩,
      by simp [h1, h2]⟩
  by_cases h3 : keyPath = ""
  · exact ⟨"client-key-path", "CHEF_CLIENT_KEY_PATH", by simp [h1, h2, h3],
      ⟨keyPath, by simp, h3⟩, by simp [h1, h2, h3]⟩
  by_cases h4 : url = ""
  · exact ⟨"sensu-api-url", "SENSU_API_URL", by simp [h1, h2, h3, h4], ⟨url, by simp, h4⟩,
      by simp [h1, h2, h3, h4]⟩
  by_cases h5 : key = ""
  · exact ⟨"sensu-api-key", "SENSU_API_KEY", by simp [h1, h2, h3, h4, h5],
      ⟨key, by simp, h5⟩, by simp [h1, h2, h3, h4, h5]⟩
  · exact absurd hm (by simp [h1, h2, h3, h4, h5])

/-- Claim C8 at a keepalive event and a configuration whose client key path and Sensu API
key are empty: the error names the client key path. -/
theorem checkArgs_names_first_missing_witness :
    firstMissing { sampleConfig with ClientKeyPath := "", SensuAPIKey := "" }
        = some ("client-key-path", "CHEF_CLIENT_KEY_PATH")
      ∧ ∃ argument envName,
          firstMissing { sampleConfig with ClientKeyPath := "", SensuAPIKey := "" }
            = some (argument, envName)
          ∧ (checkArgs { sampleWorld with
              handlerConfig := { sampleConfig with ClientKeyPath := "", SensuAPIKey := "" } }).1
            = some (.plain ("--" ++ argument ++ " or " ++ envName
                ++ " environment variable is required")) :=
  ⟨by decide,
    (checkArgs_names_first_missing
      { sampleWorld with
        handlerConfig := { sampleConfig with ClientKeyPath := "", SensuAPIKey := "" } }
      (by decide) ⟨("", "client-key-path", "CHEF_CLIENT_KEY_PATH"), by decide, rfl⟩).imp
      fun _ hx => hx.imp fun _ hy => ⟨hy.1, hy.2.2⟩⟩

/-! ## `chefNodeExists` -/

/-- Claim C5: `chefNodeExists` fails safe.  Whenever it returns an error the boolean it
returns is true, so it never returns false together with an error; and the lookups that
return an error are the ones that ended in an unreadable key file, a failed client or
request construction, or an error of `client.Do` without a 404 response. -/
theorem chefNodeExists_fail_safe (env : Env) (nodeName : String) (w : World) (e : GoError)
    (h : (chefNodeExists env nodeName w).1.2 = some e) :
    (chefNodeExists env nodeName w).1.1 = true
      ∧ (chefNodeExists env nodeName w).1 ≠ (false, some e)
      ∧ (chefLookup env nodeName w).isError = true := by
  obtain ⟨h404, herr, hok⟩ := chefNodeExists_result env nodeName w
  have hE : (chefLookup env nodeName w).isError = true := by
    by_contra hne
    have hne2 : (chefLookup env nodeName w).isError = false := by simpa using hne
    cases h4 : (chefLookup env nodeName w).is404 with
    | true =>
      rw [h404 h4] at h
      cases h
    | false =>
      rw [hok h4 hne2] at h
      cases h
  obtain ⟨e2, he2⟩ := herr hE
  refine ⟨by rw [he2], ?_, hE⟩
  rw [he2]
  simp

/-- Claim C5 at a Chef Server answering 503. -/
theorem chefNodeExists_fail_safe_witness :
    (chefNodeExists (sampleEnv answer503 none) "web-01" sampleWorld).1.2
        = some (.plain ("error when retrieving node from chef api: 503 Service Unavailable -- "
            ++ "GET https://chef.example.com/organizations/acme/nodes/web-01: 503"))
      ∧ (chefNodeExists (sampleEnv answer503 none) "web-01" sampleWorld).1.1 = true :=
  ⟨by decide,
    (chefNodeExists_fail_safe (sampleEnv answer503 none) "web-01" sampleWorld
      (.plain ("error when retrieving node from chef api: 503 Service Unavailable -- "
        ++ "GET https://chef.example.com/organizations/acme/nodes/web-01: 503"))
      (by decide)).1⟩

/-- Claim C10: `chefNodeExists` returns `(false, nil)` exactly when the request was sent
and `client.Do` gave a response with status code 404, whether or not it also gave an
error; the request is then among the calls made; in every other case the boolean is
true. -/
theorem chefNodeExists_false_iff (env : Env) (nodeName : String) (w : World) :
    ((chefNodeExists env nodeName w).1 = (false, none)
        ↔ ∃ r err, chefLookup env nodeName w = .answered (some r) err ∧ r.StatusCode = 404)
    ∧ ((chefNodeExists env nodeName w).1.1 = false
        ↔ ∃ r err, chefLookup env nodeName w = .answered (some r) err ∧ r.StatusCode = 404)
    ∧ ((chefNodeExists env nodeName w).1 = (false, none)
        → ∃ c ∈ newCalls w (chefNodeExists env nodeName w).2, c.isChefRequest = true) := by
  obtain ⟨h404, herr, hok⟩ := chefNodeExists_result env nodeName w
  have key : (chefNodeExists env nodeName w).1.1 = false
      → (chefLookup env nodeName w).is404 = true := by
    intro hf
    by_contra hne
    have h4 : (chefLookup env nodeName w).is404 = false := by simpa using hne
    cases hE : (chefLookup env nodeName w).isError with
    | true =>
      obtain ⟨e, he⟩ := herr hE
      rw [he] at hf
      cases hf
    | false =>
      rw [hok h4 hE] at hf
      cases hf
  refine ⟨?_, ?_, ?_⟩
  · rw [← is404_iff]
    exact ⟨fun h => key (by rw [h]), h404⟩
  · rw [← is404_iff]
    exact ⟨key, fun h => by rw [h404 h]⟩
  · intro h
    have h4 := key (by rw [h])
    obtain ⟨r, err, hl, -⟩ := (is404_iff _).mp h4
    obtain ⟨made, hw, -, hreq⟩ := chefNodeExists_world env nodeName w
    have hn : newCalls w (chefNodeExists env nodeName w).2 = made := by
      rw [hw]
      simp [newCalls]
    rw [hn]
    exact hreq.mpr ⟨some r, err, hl⟩

/-- Claim C10 at a Chef Server answering 404, which go-chef hands over as a response
together with an error: the result is `(false, nil)` and the error is dropped. -/
theorem chefNodeExists_false_iff_witness :
    answer404.2 ≠ none
      ∧ chefLookup (sampleEnv answer404 none) "web-01" sampleWorld
          = .answered answer404.1 answer404.2
      ∧ (chefNodeExists (sampleEnv answer404 none) "web-01" sampleWorld).1 = (false, none) :=
  ⟨by decide, by decide,
    (chefNodeExists_false_iff (sampleEnv answer404 none) "web-01" sampleWorld).1.mpr
      ⟨{ StatusCode := 404, Status := "404 Not Found" }, answer404.2, by decide, rfl⟩⟩

/-! ## `removeSensuEntity` -/

/-- Claim C9: in `removeSensuEntity`, with `NewResourceRequest` resolving the literals
"core/v2" and "Entity" as the library does, a configured CA certificate that cannot be
read or does not parse gives the error "unable to load sensu-ca-cert: ..." or
"invalid sensu-ca-cert: ..." and no DELETE; without `SensuCACert` no file is read; and in
the remaining cases exactly one DELETE is issued, for the resource of type "Entity" in
API group "core/v2" with the entity's namespace and name. -/
theorem removeSensuEntity_ca_cert (env : Env) (w : World) (hlib : resolvesEntity env) :
    (∀ err, w.handlerConfig.SensuCACert ≠ "" →
        env.readFile w.handlerConfig.SensuCACert = .error err →
        (removeSensuEntity env w).1
            = some (.plain ("unable to load sensu-ca-cert: " ++ err.Error))
          ∧ (newCalls w (removeSensuEntity env w).2).filter Call.isDelete = [])
    ∧ (∀ asn1Data err, w.handlerConfig.SensuCACert ≠ "" →
        env.readFile w.handlerConfig.SensuCACert = .ok asn1Data →
        env.parseCertificate asn1Data = some err →
        (removeSensuEntity env w).1 = some (.plain ("invalid sensu-ca-cert: " ++ err.Error))
          ∧ (newCalls w (removeSensuEntity env w).2).filter Call.isDelete = [])
    ∧ (w.handlerConfig.SensuCACert = "" →
        ∀ c ∈ newCalls w (removeSensuEntity env w).2, ∀ path, c ≠ .readFile path)
    ∧ (caCertFails env w = false →
        ∃ config : CoreClientConfig,
          config.URL = w.handlerConfig.SensuAPIURL
          ∧ config.APIKey = w.handlerConfig.SensuAPIKey
          ∧ (newCalls w (removeSensuEntity env w).2).filter Call.isDelete
              = [.deleteResource config
                  ⟨"core/v2", "Entity", w.event.Entity.Namespace, w.event.Entity.Name⟩]) := by
  obtain ⟨h1, h2, h3, h4, -⟩ := removeSensuEntity_cases env w
  refine ⟨h1, h2, h3, ?_⟩
  intro hca
  obtain ⟨config, hurl, hkey, hone, -⟩ :=
    h4 hca (hlib w.event.Entity.Namespace w.event.Entity.Name)
  exact ⟨config, hurl, hkey, hone⟩

/-- Claim C9 at an unreadable CA certificate, which stops before the DELETE, and without
a CA certificate, where exactly one DELETE for the entity `default/web-01` goes out. -/
theorem removeSensuEntity_ca_cert_witness :
    resolvesEntity (sampleEnv answer404 none)
      ∧ sampleWorldCA.handlerConfig.SensuCACert ≠ ""
      ∧ (removeSensuEntity (sampleEnv answer404 none) sampleWorldCA).1
          = some (.plain ("unable to load sensu-ca-cert: "
              ++ "open /etc/sensu/ca.pem: no such file or directory"))
      ∧ caCertFails (sampleEnv answer404 none) sampleWorld = false
      ∧ (newCalls sampleWorld (removeSensuEntity (sampleEnv answer404 none) sampleWorld).2).filter
          Call.isDelete
        = [.deleteResource ⟨"http://localhost:8080", "secret", none⟩
            ⟨"core/v2", "Entity", "default", "web-01"⟩] :=
  ⟨fun _ _ => rfl, by decide,
    ((removeSensuEntity_ca_cert (sampleEnv answer404 none) sampleWorldCA (fun _ _ => rfl)).1
      (.plain "open /etc/sensu/ca.pem: no such file or directory") (by decide) rfl).1,
    by decide, by decide⟩

/-! ## `executeHandler` -/

/-- Claim C1: when `chefNodeExists` returns `(true, nil)`, `executeHandler` returns nil and
the world it leaves is the one `chefNodeExists` left plus the line it prints: nothing of
`removeSensuEntity` has run, and no call to the Sensu API, hence no DELETE, was made.
In general a DELETE is among the calls of `executeHandler` only if `chefNodeExists`
returned `(false, nil)`. -/
theorem executeHandler_node_exists (env : Env) (w : World) :
    ((chefNodeExists env (chefNodeName w) w).1 = (true, none) →
      (executeHandler env w).1 = none
        ∧ (executeHandler env w).2
            = (chefNodeExists env (chefNodeName w) w).2.record
                (.println ("chef node exists: " ++ chefNodeName w ++ "\n"))
        ∧ (∀ c ∈ newCalls w (executeHandler env w).2, c.isSensu = false)
        ∧ (newCalls w (executeHandler env w).2).filter Call.isDelete = [])
    ∧ ((newCalls w (executeHandler env w).2).filter Call.isDelete ≠ [] →
        (chefNodeExists env (chefNodeName w) w).1 = (false, none)) := by
  obtain ⟨made, hw, hs, -⟩ := chefNodeExists_world env (chefNodeName w) w
  have hexists : (chefNodeExists env (chefNodeName w) w).1 = (true, none) →
      (executeHandler env w).1 = none
        ∧ (executeHandler env w).2
            = (chefNodeExists env (chefNodeName w) w).2.record
                (.println ("chef node exists: " ++ chefNodeName w ++ "\n"))
        ∧ (∀ c ∈ newCalls w (executeHandler env w).2, c.isSensu = false)
        ∧ (newCalls w (executeHandler env w).2).filter Call.isDelete = [] := by
    intro h
    have hb := (executeHandler_branches env w).2.1 h
    have hn : newCalls w (executeHandler env w).2
        = made ++ [.println ("chef node exists: " ++ chefNodeName w ++ "\n")] := by
      rw [hb, hw]
      simp [newCalls, World.record]
    have hall : ∀ c ∈ newCalls w (executeHandler env w).2, c.isSensu = false := by
      rw [hn]
      intro c hc
      rcases List.mem_append.mp hc with hc | hc
      · exact hs c hc
      · simp at hc
        rw [hc]
        rfl
    exact ⟨by rw [hb], by rw [hb], hall, no_delete_of_no_sensu _ hall⟩
  refine ⟨hexists, ?_⟩
  intro hdel
  cases hr : (chefNodeExists env (chefNodeName w) w).1 with
  | mk b oe =>
    cases oe with
    | some e =>
      exfalso
      apply hdel
      have hb := (executeHandler_branches env w).1 e (by rw [hr])
      have hn : newCalls w (executeHandler env w).2 = made := by
        rw [hb, hw]
        simp [newCalls]
      rw [hn]
      exact no_delete_of_no_sensu made hs
    | none =>
      cases b with
      | true => exact absurd (hexists hr).2.2.2 hdel
      | false => rfl

/-- Claim C1 at a Chef Server answering 200. -/
theorem executeHandler_node_exists_witness :
    (chefNodeExists (sampleEnv answer200 none) (chefNodeName sampleWorld) sampleWorld).1
        = (true, none)
      ∧ (executeHandler (sampleEnv answer200 none) sampleWorld).1 = none
      ∧ (newCalls sampleWorld (executeHandler (sampleEnv answer200 none) sampleWorld).2).filter
          Call.isDelete = [] :=
  ⟨by decide,
    ((executeHandler_node_exists (sampleEnv answer200 none) sampleWorld).1 (by decide)).1,
    ((executeHandler_node_exists (sampleEnv answer200 none) sampleWorld).1 (by decide)).2.2.2⟩

/-- Claim C2: when the Chef lookup ends in an error other than a 404 response (key file
unreadable, client or request construction failed, transport error, 5xx or another
non-404 error response), `chefNodeExists` returns true with an error, `executeHandler`
returns that very error and leaves the world as `chefNodeExists` left it: nothing of
`removeSensuEntity` has run and no call to the Sensu API, hence no DELETE, was made. -/
theorem executeHandler_lookup_error (env : Env) (w : World)
    (h : (chefLookup env (chefNodeName w) w).isError = true) :
    ∃ e : GoError,
      (chefNodeExists env (chefNodeName w) w).1 = (true, some e)
      ∧ (executeHandler env w).1 = some e
      ∧ (executeHandler env w).2 = (chefNodeExists env (chefNodeName w) w).2
      ∧ (∀ c ∈ newCalls w (executeHandler env w).2, c.isSensu = false)
      ∧ (newCalls w (executeHandler env w).2).filter Call.isDelete = [] := by
  obtain ⟨e, he⟩ := (chefNodeExists_result env (chefNodeName w) w).2.1 h
  have hb := (executeHandler_branches env w).1 e (by rw [he])
  obtain ⟨made, hw, hs, -⟩ := chefNodeExists_world env (chefNodeName w) w
  have hn : newCalls w (executeHandler env w).2 = made := by
    rw [hb, hw]
    simp [newCalls]
  have hall : ∀ c ∈ newCalls w (executeHandler env w).2, c.isSensu = false := by
    rw [hn]
    exact hs
  exact ⟨e, he, by rw [hb], by rw [hb], hall, no_delete_of_no_sensu _ hall⟩

/-- Claim C2 at a Chef Server answering 503. -/
theorem executeHandler_lookup_error_witness :
    (chefLookup (sampleEnv answer503 none) (chefNodeName sampleWorld) sampleWorld).isError = true
      ∧ ∃ e : GoError,
          (executeHandler (sampleEnv answer503 none) sampleWorld).1 = some e
          ∧ (newCalls sampleWorld
              (executeHandler (sampleEnv answer503 none) sampleWorld).2).filter Call.isDelete
            = [] :=
  ⟨by decide,
    (executeHandler_lookup_error (sampleEnv answer503 none) sampleWorld (by decide)).imp
      fun _ hx => ⟨hx.2.1, hx.2.2.2.2⟩⟩

/-- Claim C3 as stated fails: the Chef Server answers 404, the DELETE goes out, and since
the Sensu API answers it with 500 the invocation fails. -/
theorem lookup_404_issues_delete :
    (chefLookup (sampleEnv answer404 (some (.httpError 500 "internal error")))
        (chefNodeName sampleWorld) sampleWorld).is404 = true
      ∧ (executeHandler (sampleEnv answer404 (some (.httpError 500 "internal error")))
          sampleWorld).1 = some (.httpError 500 "internal error")
      ∧ (newCalls sampleWorld
          (executeHandler (sampleEnv answer404 (some (.httpError 500 "internal error")))
            sampleWorld).2).filter Call.isDelete
        = [.deleteResource ⟨"http://localhost:8080", "secret", none⟩
            ⟨"core/v2", "Entity", "default", "web-01"⟩] := by
  decide

/-- Claim C3, amended: when the Chef GET yields a 404 response, `chefNodeExists` returns
`(false, nil)` and `executeHandler` invokes `removeSensuEntity` and returns what it
returns; if the CA certificate, when configured, loads and the resource request is built,
exactly one DELETE goes out, for the event's entity. -/
theorem executeHandler_not_found (env : Env) (w : World)
    (h : (chefLookup env (chefNodeName w) w).is404 = true) :
    (chefNodeExists env (chefNodeName w) w).1 = (false, none)
      ∧ executeHandler env w
          = removeSensuEntity env ((chefNodeExists env (chefNodeName w) w).2.record
              (.println "chef node does not exist, removing the sensu entity\n"))
      ∧ (caCertFails env w = false →
          env.newResourceRequest "core/v2" "Entity" w.event.Entity.Namespace
            w.event.Entity.Name = none →
          ∃ config : CoreClientConfig,
            (newCalls w (executeHandler env w).2).filter Call.isDelete
              = [.deleteResource config
                  ⟨"core/v2", "Entity", w.event.Entity.Namespace, w.event.Entity.Name⟩]) := by
  have hnf := (chefNodeExists_result env (chefNodeName w) w).1 h
  obtain ⟨w2, hw2, hcfg, hev, hb, hdel⟩ := executeHandler_absent env w hnf
  refine ⟨hnf, by rw [hb, hw2], ?_⟩
  intro hca hq
  have hc := (removeSensuEntity_cases env w2).2.2.2.1
  rw [caCertFails_congr env w w2 hcfg, hev] at hc
  obtain ⟨config, -, -, hone, -⟩ := hc hca hq
  exact ⟨config, by rw [hdel, hone]⟩

/-- Claim C3, amended, at a Chef Server answering 404 and a Sensu API that deletes. -/
theorem executeHandler_not_found_witness :
    (chefLookup (sampleEnv answer404 none) (chefNodeName sampleWorld) sampleWorld).is404 = true
      ∧ (chefNodeExists (sampleEnv answer404 none) (chefNodeName sampleWorld) sampleWorld).1
          = (false, none) :=
  ⟨by decide, (executeHandler_not_found (sampleEnv answer404 none) sampleWorld (by decide)).1⟩

/-- Claim C4 as stated fails: the node is not found and the Sensu API would answer any
DELETE with success, but the CA certificate cannot be read; the invocation fails with that
error and no DELETE goes out. -/
theorem unreadable_ca_cert_decides :
    (chefNodeExists (sampleEnv answer404 none) (chefNodeName sampleWorldCA) sampleWorldCA).1
        = (false, none)
      ∧ (∀ cfg req, deleteVerdict ((sampleEnv answer404 none).deleteResource cfg req) = none)
      ∧ (executeHandler (sampleEnv answer404 none) sampleWorldCA).1
          = some (.plain ("unable to load sensu-ca-cert: "
              ++ "open /etc/sensu/ca.pem: no such file or directory"))
      ∧ (newCalls sampleWorldCA
          (executeHandler (sampleEnv answer404 none) sampleWorldCA).2).filter Call.isDelete
        = [] :=
  ⟨by decide, fun _ _ => rfl, by decide, by decide⟩

/-- Claim C4, amended: when the Chef lookup reports the node as not found and
`removeSensuEntity` gets as far as the DELETE (the CA certificate, if configured, is read
and parsed and the resource request is built), exactly one DELETE goes out and
`executeHandler` returns the verdict on its outcome: nil if it succeeded or failed with
an `HTTPError` whose status code is below 500, otherwise exactly the error it produced. -/
theorem executeHandler_delete_verdict (env : Env) (w : World)
    (hnf : (chefNodeExists env (chefNodeName w) w).1 = (false, none))
    (hca : caCertFails env w = false)
    (hq : env.newResourceRequest "core/v2" "Entity" w.event.Entity.Namespace
      w.event.Entity.Name = none) :
    ∃ config : CoreClientConfig,
      config.URL = w.handlerConfig.SensuAPIURL
      ∧ config.APIKey = w.handlerConfig.SensuAPIKey
      ∧ (newCalls w (executeHandler env w).2).filter Call.isDelete
          = [.deleteResource config
              ⟨"core/v2", "Entity", w.event.Entity.Namespace, w.event.Entity.Name⟩]
      ∧ (executeHandler env w).1
          = deleteVerdict (env.deleteResource config
              ⟨"core/v2", "Entity", w.event.Entity.Namespace, w.event.Entity.Name⟩) := by
  obtain ⟨w2, -, hcfg, hev, hb, hdel⟩ := executeHandler_absent env w hnf
  have hc := (removeSensuEntity_cases env w2).2.2.2.1
  rw [caCertFails_congr env w w2 hcfg, hev, hcfg] at hc
  obtain ⟨config, hurl, hkey, hone, hres⟩ := hc hca hq
  exact ⟨config, hurl, hkey, by rw [hdel, hone], by rw [hb, hres]⟩

/-- Claim C4, amended, at a node that is not found and a DELETE answered with 404: the
invocation succeeds. -/
theorem executeHandler_delete_verdict_witness :
    (chefNodeExists (sampleEnv answer404 (some (.httpError 404 "not found")))
        (chefNodeName sampleWorld) sampleWorld).1 = (false, none)
      ∧ caCertFails (sampleEnv answer404 (some (.httpError 404 "not found"))) sampleWorld = false
      ∧ (executeHandler (sampleEnv answer404 (some (.httpError 404 "not found")))
          sampleWorld).1 = none :=
  ⟨by decide, by decide,
    (executeHandler_delete_verdict (sampleEnv answer404 (some (.httpError 404 "not found")))
      sampleWorld (by decide) (by decide) rfl).elim
      fun _ hx => hx.2.2.2.trans rfl⟩

end ChefHandler
